import Mathlib

/-!
# Verification of the `profiles` UI component library

Shallow embedding of the stateful core of the repository: the
`ProfilesStore` class of `src/ui/src/bundle.ts` (a mobx store holding a
string-keyed cache `profiles : Dictionary<Profile>` and performing
fetch/search/create operations against a `ProfilesService`), and the
`EditProfile.fireSaveProfile` event builder of
`src/ui/src/elements/edit-profile.ts`.

The asynchronous service is embedded by passing the outcome of the single
awaited service call as an explicit `Except ServiceFailure _` argument to
each operation; on a failure the method body never reaches its
`runInAction` block, so the operation returns the error and the store
state is unchanged.  A JavaScript object with string keys is embedded as
an association list: assignment `obj[k] = v` replaces the value at an
existing key in place and appends a fresh key at the end, and lookup
`obj[k]` returns the value at the key if present.
-/

set_option autoImplicit false

namespace Profiles

/-- `Profile` from `src/ui/src/types` as described by the data model
(§3 of the design): a nickname and an open-ended string-to-string map of
named fields (e.g. `"avatar"`). -/
structure Profile where
  nickname : String
  fields : List (String × String)
deriving DecidableEq, Repr

/-- `AgentProfile`: the pairing of an agent's public key (its stable
textual identity) with its profile, as produced by the service and by
`knownProfiles`. -/
structure AgentProfile where
  agent_pub_key : String
  profile : Profile
deriving DecidableEq, Repr

/-- Assignment `obj[k] = v` on a string-keyed JavaScript object embedded
as an association list: an existing key keeps its position and gets the
new value, a fresh key is appended at the end. -/
def assocSet {α : Type} : List (String × α) → String → α → List (String × α)
  | [], k, v => [(k, v)]
  | e :: c, k, v => if e.1 = k then (k, v) :: c else e :: assocSet c k v

/-- Lookup `obj[k]` on a string-keyed JavaScript object embedded as an
association list: the value at the key, or `none` (undefined) if the key
is absent. -/
def assocGet {α : Type} : List (String × α) → String → Option α
  | [], _ => none
  | e :: c, k => if e.1 = k then some e.2 else assocGet c k

/-- The store's cache: the mobx observable `profiles : Dictionary<Profile>`
mapping agent public keys to profiles. -/
abbrev Cache := List (String × Profile)

/-- Failures of the external `ProfilesService` (§7 of the design): the
remote call could not complete or was rejected, or the backend rejected a
`createProfile` payload. The store propagates both unchanged. -/
inductive ServiceFailure where
  | serviceError (msg : String)
  | validationError (msg : String)
deriving DecidableEq, Repr

/-- The state of a `ProfilesStore`: the constant own agent key
(`myAgentPubKey`, derived once from the service's cell id) and the
mutable profile cache. -/
structure ProfilesStore where
  myAgentPubKey : String
  profiles : Cache
deriving DecidableEq, Repr

/-- The cache mutation of the `runInAction` block of `fetchAllProfiles`
(and, identically, `searchProfiles`): for each returned `agentProfile` in
order, `this.profiles[agentProfile.agent_pub_key] = agentProfile.profile`. -/
def mergeEntries (c : Cache) (l : List AgentProfile) : Cache :=
  l.foldl (fun acc ap => assocSet acc ap.agent_pub_key ap.profile) c

/-- `ProfilesStore.fetchAllProfiles`: awaits `service.getAllProfiles()`
(outcome passed as `result`); on success writes every returned entry into
the cache, on failure returns the rejection with the store unchanged. -/
def fetchAllProfiles (s : ProfilesStore)
    (result : Except ServiceFailure (List AgentProfile)) :
    Except ServiceFailure ProfilesStore :=
  match result with
  | .error e => .error e
  | .ok allProfiles =>
    .ok { s with profiles := mergeEntries s.profiles allProfiles }

/-- `ProfilesStore.fetchMyProfile`: awaits `service.getMyProfile()`; on
success writes `this.profiles[this.myAgentPubKey] = myProfile.profile`
(the key used is the store's own key, not the one in the response). -/
def fetchMyProfile (s : ProfilesStore)
    (result : Except ServiceFailure AgentProfile) :
    Except ServiceFailure ProfilesStore :=
  match result with
  | .error e => .error e
  | .ok myProfileResult =>
    .ok { s with
          profiles := assocSet s.profiles s.myAgentPubKey
            myProfileResult.profile }

/-- `ProfilesStore.searchProfiles(nicknamePrefix)`: awaits
`service.searchProfiles(nicknamePrefix)`; on success writes every
returned entry into the cache with the same loop as `fetchAllProfiles`
(`this.profiles[agent_pub_key] = profile`), with no local filtering. -/
def searchProfiles (s : ProfilesStore) (pfx : String)
    (result : Except ServiceFailure (List AgentProfile)) :
    Except ServiceFailure ProfilesStore :=
  match pfx, result with
  | _, .error e => .error e
  | _, .ok searchedProfiles =>
    .ok { s with
          profiles :=
            searchedProfiles.foldl
              (fun acc ap => assocSet acc ap.agent_pub_key ap.profile)
              s.profiles }

/-- `ProfilesStore.createProfile(profile)`: awaits
`service.createProfile(profile)`; on success writes
`this.profiles[this.myAgentPubKey] = profile` — the exact value passed
in, not a re-fetched one. -/
def createProfile (s : ProfilesStore) (profile : Profile)
    (result : Except ServiceFailure Unit) :
    Except ServiceFailure ProfilesStore :=
  match result with
  | .error e => .error e
  | .ok _ =>
    .ok { s with
          profiles := assocSet s.profiles s.myAgentPubKey profile }

/-- The computed getter `ProfilesStore.myProfile`:
`this.profiles[this.myAgentPubKey]`, `none` when not yet fetched or
created. -/
def myProfile (s : ProfilesStore) : Option Profile :=
  assocGet s.profiles s.myAgentPubKey

/-- The computed getter `ProfilesStore.knownProfiles`: one `AgentProfile`
per cache entry, in the cache's iteration order. -/
def knownProfiles (s : ProfilesStore) : List AgentProfile :=
  s.profiles.map (fun e => { agent_pub_key := e.1, profile := e.2 })

/-- Modelled from the spec: `profileOf(agentId)` of the `ProfilesStore`
(the file `src/ui/src/profiles-store.ts` defining it is not in the source
tree; only its caller `AgentAvatar` is). Per §4.1 it is a side-effect-free
derived read view returning `cache[agentId]` or absent. -/
def profileOf (s : ProfilesStore) (agentId : String) : Option Profile :=
  assocGet s.profiles agentId

/-- Modelled from the spec: `fetchAgentProfile(agentId)` of the
`ProfilesStore` (the file `src/ui/src/profiles-store.ts` defining it is
not in the source tree; only its caller `AgentAvatar` is). Per §4.1 and
§6 it calls `service.getAgentProfile(agentId)`, which yields an
`AgentProfile` or absent; on success it writes `cache[agentId] = profile`,
and an absent result is simply not inserted into the cache (§4 error
conditions). On failure the rejection propagates with the store
unchanged. -/
def fetchAgentProfile (s : ProfilesStore) (agentId : String)
    (result : Except ServiceFailure (Option AgentProfile)) :
    Except ServiceFailure ProfilesStore :=
  match result with
  | .error e => .error e
  | .ok none => .ok s
  | .ok (some ap) =>
    .ok { s with profiles := assocSet s.profiles agentId ap.profile }

/-! ## A successful fetch/search call sequence (for the cache invariant) -/

/-- One successful `fetchAllProfiles` or `searchProfiles` call, recorded
with the entries the service returned for it. -/
inductive FetchCall where
  | fetchAll (returned : List AgentProfile)
  | search (pfx : String) (returned : List AgentProfile)
deriving DecidableEq, Repr

/-- The store state after one successful fetch/search call: the
operation is run on the `Except.ok` service outcome and its resulting
state extracted (a successful call never returns an error). -/
def applyFetchCall (s : ProfilesStore) : FetchCall → ProfilesStore
  | .fetchAll returned =>
    match fetchAllProfiles s (.ok returned) with
    | .ok s' => s'
    | .error _ => s
  | .search pfx returned =>
    match searchProfiles s pfx (.ok returned) with
    | .ok s' => s'
    | .error _ => s

/-- Running a sequence of successful fetch/search calls in order. -/
def runFetchCalls (s : ProfilesStore) : List FetchCall → ProfilesStore
  | [] => s
  | c :: cs => runFetchCalls (applyFetchCall s c) cs

/-- All entries returned across a sequence of calls, in the order they
were received. -/
def returnedEntries : List FetchCall → List AgentProfile
  | [] => []
  | .fetchAll returned :: cs => returned ++ returnedEntries cs
  | .search _ returned :: cs => returned ++ returnedEntries cs

/-- The last-received profile for a given agent id among a list of
returned entries, if any: a later entry for the id wins over an earlier
one. -/
def lastWins : List AgentProfile → String → Option Profile
  | [], _ => none
  | ap :: l, k =>
    match lastWins l k with
    | some p => some p
    | none => if ap.agent_pub_key = k then some ap.profile else none

/-! ## Arbitrary operation traces (successful or failing) -/

instance {ε α : Type} [DecidableEq ε] [DecidableEq α] :
    DecidableEq (Except ε α) := fun a b =>
  match a, b with
  | .error e, .error e' =>
    if h : e = e' then isTrue (by rw [h])
    else isFalse (by intro hh; cases hh; exact h rfl)
  | .error _, .ok _ => isFalse (by intro hh; cases hh)
  | .ok _, .error _ => isFalse (by intro hh; cases hh)
  | .ok x, .ok y =>
    if h : x = y then isTrue (by rw [h])
    else isFalse (by intro hh; cases hh; exact h rfl)

/-- One store operation together with the outcome of its underlying
service call (successful or failing). -/
inductive StoreOp where
  | fetchAll (r : Except ServiceFailure (List AgentProfile))
  | fetchMy (r : Except ServiceFailure AgentProfile)
  | fetchAgent (agentId : String) (r : Except ServiceFailure (Option AgentProfile))
  | search (pfx : String) (r : Except ServiceFailure (List AgentProfile))
  | create (p : Profile) (r : Except ServiceFailure Unit)
deriving DecidableEq, Repr

/-- The store state after one operation: on a successful service call the
operation's resulting state, on a failure the previous state (the method
body throws before its `runInAction` block, leaving the store untouched). -/
def applyOp (s : ProfilesStore) : StoreOp → ProfilesStore
  | .fetchAll r =>
    match fetchAllProfiles s r with
    | .ok s' => s'
    | .error _ => s
  | .fetchMy r =>
    match fetchMyProfile s r with
    | .ok s' => s'
    | .error _ => s
  | .fetchAgent agentId r =>
    match fetchAgentProfile s agentId r with
    | .ok s' => s'
    | .error _ => s
  | .search pfx r =>
    match searchProfiles s pfx r with
    | .ok s' => s'
    | .error _ => s
  | .create p r =>
    match createProfile s p r with
    | .ok s' => s'
    | .error _ => s

/-- Running a sequence of store operations in order. -/
def runOps (s : ProfilesStore) : List StoreOp → ProfilesStore
  | [] => s
  | op :: ops => runOps (applyOp s op) ops

/-- Whether an operation writes the cache entry of `aid`, for a store
whose own agent key is `selfId`: a successful fetch/search writes the
ids of its returned entries, a successful `fetchMyProfile` or
`createProfile` writes the own key, a successful `fetchAgentProfile`
writes its requested id when the service reports a profile, and a
failing operation writes nothing. -/
def touchesB (selfId aid : String) : StoreOp → Bool
  | .fetchAll (.ok l) => l.any (fun ap => ap.agent_pub_key == aid)
  | .fetchAll (.error _) => false
  | .fetchMy (.ok _) => selfId == aid
  | .fetchMy (.error _) => false
  | .fetchAgent agentId (.ok (some _)) => agentId == aid
  | .fetchAgent _ (.ok none) => false
  | .fetchAgent _ (.error _) => false
  | .search _ (.ok l) => l.any (fun ap => ap.agent_pub_key == aid)
  | .search _ (.error _) => false
  | .create _ (.ok _) => selfId == aid
  | .create _ (.error _) => false

/-! ## The `EditProfile` save event (`src/ui/src/elements/edit-profile.ts`) -/

/-- The state of an `EditProfile` element at the time the save button is
clicked: the current value of the nickname text field
(`this._nicknameField.value`), the additional `mwc-textfield` elements as
the pairs (field id, current value) in DOM order — the field id being
`textfieldToFieldId`'s result, i.e. the third `-`-separated segment of the
element id `profile-field-<name>` — and the currently selected avatar
(`this._avatar : string | undefined`). -/
structure EditProfileState where
  nicknameValue : String
  additionalTextFields : List (String × String)
  avatar : Option String
deriving DecidableEq, Repr

/-- `EditProfile.getAdditionalFieldsValues`: builds a fresh record and,
for each additional text field in order, assigns `values[id] =
textfield.value`. -/
def getAdditionalFieldsValues (st : EditProfileState) :
    List (String × String) :=
  st.additionalTextFields.foldl (fun values f => assocSet values f.1 f.2) []

/-- `EditProfile.fireSaveProfile`: builds the `Profile` carried by the
`save-profile` event. The fields record starts as
`getAdditionalFieldsValues()`; then `if (this._avatar)` (JavaScript
truthiness: skipped when `_avatar` is `undefined` or the empty string)
assigns `fields["avatar"] = this._avatar`; the nickname is the nickname
field's current value. -/
def fireSaveProfile (st : EditProfileState) : Profile :=
  let values := getAdditionalFieldsValues st
  let fields :=
    match st.avatar with
    | some a => if a = "" then values else assocSet values "avatar" a
    | none => values
  { fields := fields, nickname := st.nicknameValue }

/-! ## Basic lemmas about the embedded JavaScript object operations -/

theorem assocGet_assocSet {α : Type} (c : List (String × α)) (k k' : String)
    (v : α) :
    assocGet (assocSet c k v) k' =
      if k' = k then some v else assocGet c k' := by
  induction c with
  | nil =>
    simp only [assocSet, assocGet]
    rcases eq_or_ne k' k with h | h
    · subst h; simp
    · simp [h, Ne.symm h]
  | cons e c ih =>
    simp only [assocSet]
    rcases eq_or_ne e.1 k with he | he
    · rw [if_pos he]
      rcases eq_or_ne k' k with h | h
      · subst h; simp [assocGet, he]
      · have h1 : e.1 ≠ k' := fun hh => h (he.symm.trans hh).symm
        simp [assocGet, h, Ne.symm h, h1]
    · rw [if_neg he]
      simp only [assocGet, ih]
      rcases eq_or_ne e.1 k' with h1 | h1
      · have h2 : k' ≠ k := fun hh => he (h1.trans hh)
        simp [h1, h2]
      · simp [h1]

theorem assocGet_mergeEntries (l : List AgentProfile) (c : Cache)
    (k : String) :
    assocGet (mergeEntries c l) k =
      match lastWins l k with
      | some p => some p
      | none => assocGet c k := by
  induction l generalizing c with
  | nil => simp [mergeEntries, lastWins]
  | cons ap l ih =>
    show assocGet
        (mergeEntries (assocSet c ap.agent_pub_key ap.profile) l) k = _
    rw [ih]
    simp only [lastWins]
    rcases hl : lastWins l k with _ | p
    · simp only [assocGet_assocSet]
      rcases eq_or_ne k ap.agent_pub_key with h | h
      · simp [h]
      · simp [h, Ne.symm h]
    · simp

theorem lastWins_append (l₁ l₂ : List AgentProfile) (k : String) :
    lastWins (l₁ ++ l₂) k =
      match lastWins l₂ k with
      | some p => some p
      | none => lastWins l₁ k := by
  induction l₁ with
  | nil =>
    simp only [List.nil_append, lastWins]
    rcases h : lastWins l₂ k with _ | p <;> simp
  | cons ap l₁ ih =>
    have hstep : ∀ (l : List AgentProfile),
        lastWins (ap :: l) k =
          match lastWins l k with
          | some p => some p
          | none =>
            if ap.agent_pub_key = k then some ap.profile else none :=
      fun _ => rfl
    rw [List.cons_append, hstep (l₁ ++ l₂), hstep l₁, ih]
    rcases h2 : lastWins l₂ k with _ | p <;>
      rcases h1 : lastWins l₁ k with _ | q <;> simp [h1, h2]

theorem applyFetchCall_eq (s : ProfilesStore) (c : FetchCall) :
    applyFetchCall s c =
      { s with
        profiles := mergeEntries s.profiles (returnedEntries [c]) } := by
  cases c with
  | fetchAll returned =>
    simp [applyFetchCall, fetchAllProfiles, returnedEntries, mergeEntries]
  | search pfx returned =>
    simp [applyFetchCall, searchProfiles, returnedEntries, mergeEntries]

theorem applyOp_myAgentPubKey (s : ProfilesStore) (op : StoreOp) :
    (applyOp s op).myAgentPubKey = s.myAgentPubKey := by
  rcases op with r | r | ⟨agentId, r⟩ | ⟨pfx, r⟩ | ⟨p, r⟩ <;>
    rcases r with e | x <;>
    first
      | rfl
      | (rcases x with _ | ap <;> rfl)

theorem runOps_myAgentPubKey (s : ProfilesStore) (ops : List StoreOp) :
    (runOps s ops).myAgentPubKey = s.myAgentPubKey := by
  induction ops generalizing s with
  | nil => rfl
  | cons op ops ih => rw [runOps, ih, applyOp_myAgentPubKey]

theorem lastWins_eq_none (l : List AgentProfile) (aid : String)
    (h : l.any (fun ap => ap.agent_pub_key == aid) = false) :
    lastWins l aid = none := by
  induction l with
  | nil => rfl
  | cons ap l ih =>
    simp only [List.any_cons, Bool.or_eq_false_iff] at h
    have h1 : ap.agent_pub_key ≠ aid := by
      intro hh
      simp [hh] at h
    rw [show lastWins (ap :: l) aid =
        match lastWins l aid with
        | some p => some p
        | none =>
          if ap.agent_pub_key = aid then some ap.profile else none from rfl,
      ih h.2]
    simp [h1]

theorem assocGet_mergeEntries_untouched (l : List AgentProfile) (c : Cache)
    (aid : String) (h : l.any (fun ap => ap.agent_pub_key == aid) = false) :
    assocGet (mergeEntries c l) aid = assocGet c aid := by
  rw [assocGet_mergeEntries, lastWins_eq_none l aid h]

theorem applyOp_untouched (s : ProfilesStore) (op : StoreOp) (aid : String)
    (h : touchesB s.myAgentPubKey aid op = false) :
    assocGet (applyOp s op).profiles aid = assocGet s.profiles aid := by
  rcases op with r | r | ⟨agentId, r⟩ | ⟨pfx, r⟩ | ⟨p, r⟩
  · rcases r with e | l
    · rfl
    · exact assocGet_mergeEntries_untouched l s.profiles aid h
  · rcases r with e | ap
    · rfl
    · have h1 : s.myAgentPubKey ≠ aid := by
        intro hh
        simp [touchesB, hh] at h
      show assocGet (assocSet s.profiles s.myAgentPubKey ap.profile) aid = _
      rw [assocGet_assocSet]
      simp [Ne.symm h1]
  · rcases r with e | x
    · rfl
    · rcases x with _ | ap
      · rfl
      · have h1 : agentId ≠ aid := by
          intro hh
          simp [touchesB, hh] at h
        show assocGet (assocSet s.profiles agentId ap.profile) aid = _
        rw [assocGet_assocSet]
        simp [Ne.symm h1]
  · rcases r with e | l
    · rfl
    · exact assocGet_mergeEntries_untouched l s.profiles aid h
  · rcases r with e | u
    · rfl
    · have h1 : s.myAgentPubKey ≠ aid := by
        intro hh
        simp [touchesB, hh] at h
      show assocGet (assocSet s.profiles s.myAgentPubKey p) aid = _
      rw [assocGet_assocSet]
      simp [Ne.symm h1]

theorem runOps_untouched (ops : List StoreOp) :
    ∀ (s : ProfilesStore) (aid : String),
      (∀ op ∈ ops, touchesB s.myAgentPubKey aid op = false) →
      assocGet (runOps s ops).profiles aid = assocGet s.profiles aid := by
  induction ops with
  | nil => intro s aid _; rfl
  | cons op ops ih =>
    intro s aid h
    have h1 := h op (List.mem_cons_self op ops)
    have h2 : ∀ op' ∈ ops,
        touchesB (applyOp s op).myAgentPubKey aid op' = false := by
      intro op' hop'
      rw [applyOp_myAgentPubKey]
      exact h op' (List.mem_cons_of_mem op hop')
    show assocGet (runOps (applyOp s op) ops).profiles aid = _
    rw [ih (applyOp s op) aid h2, applyOp_untouched s op aid h1]

theorem assocSet_preserves {α : Type} (c : List (String × α))
    (k' k : String) (v : α) (h : assocGet c k ≠ none) :
    assocGet (assocSet c k' v) k ≠ none := by
  rw [assocGet_assocSet]
  rcases eq_or_ne k k' with hh | hh
  · simp [hh]
  · simpa [hh] using h

theorem mergeEntries_preserves (l : List AgentProfile) (c : Cache)
    (k : String) (h : assocGet c k ≠ none) :
    assocGet (mergeEntries c l) k ≠ none := by
  rw [assocGet_mergeEntries]
  rcases hl : lastWins l k with _ | p
  · simpa using h
  · simp

theorem applyOp_preserves (s : ProfilesStore) (op : StoreOp) (k : String)
    (h : assocGet s.profiles k ≠ none) :
    assocGet (applyOp s op).profiles k ≠ none := by
  rcases op with r | r | ⟨agentId, r⟩ | ⟨pfx, r⟩ | ⟨p, r⟩
  · rcases r with e | l
    · exact h
    · exact mergeEntries_preserves l s.profiles k h
  · rcases r with e | ap
    · exact h
    · exact assocSet_preserves s.profiles s.myAgentPubKey k ap.profile h
  · rcases r with e | x
    · exact h
    · rcases x with _ | ap
      · exact h
      · exact assocSet_preserves s.profiles agentId k ap.profile h
  · rcases r with e | l
    · exact h
    · exact mergeEntries_preserves l s.profiles k h
  · rcases r with e | u
    · exact h
    · exact assocSet_preserves s.profiles s.myAgentPubKey k p h

/-! ## The claims -/

/-- Claim C1: for every sequence of successful `fetchAllProfiles` and
`searchProfiles` calls starting from any cache state, the final cache
equals the initial cache overwritten by the union of all entries returned
across those calls, where for each agent id the last-received profile
wins: at every key, the final cache holds the last entry returned for
that key across the sequence, and falls back to the initial cache at keys
no call returned. -/
theorem claim_C1_last_writer_wins (s : ProfilesStore)
    (calls : List FetchCall) (k : String) :
    assocGet (runFetchCalls s calls).profiles k =
      match lastWins (returnedEntries calls) k with
      | some p => some p
      | none => assocGet s.profiles k := by
  induction calls generalizing s with
  | nil => rfl
  | cons c cs ih =>
    show assocGet (runFetchCalls (applyFetchCall s c) cs).profiles k = _
    rw [ih, applyFetchCall_eq]
    have hre : returnedEntries (c :: cs) =
        returnedEntries [c] ++ returnedEntries cs := by
      cases c <;> simp [returnedEntries]
    rw [hre, lastWins_append]
    show (match lastWins (returnedEntries cs) k with
          | some p => some p
          | none =>
            assocGet (mergeEntries s.profiles (returnedEntries [c])) k) = _
    rw [assocGet_mergeEntries]
    rcases h2 : lastWins (returnedEntries cs) k with _ | p <;>
      rcases h1 : lastWins (returnedEntries [c]) k with _ | q <;>
        simp [h1, h2]

/-- Claim C2: every fetch, search, or create operation whose underlying
service call fails propagates exactly that failure to the caller, and the
resulting store state (`applyOp`, where a failing method leaves the state
as it was) is exactly the state before the operation. -/
theorem claim_C2_failure_leaves_cache_unchanged (s : ProfilesStore)
    (e : ServiceFailure) :
    fetchAllProfiles s (.error e) = .error e ∧
    fetchMyProfile s (.error e) = .error e ∧
    (∀ pfx, searchProfiles s pfx (.error e) = .error e) ∧
    (∀ p, createProfile s p (.error e) = .error e) ∧
    (∀ aid, fetchAgentProfile s aid (.error e) = .error e) ∧
    applyOp s (.fetchAll (.error e)) = s ∧
    applyOp s (.fetchMy (.error e)) = s ∧
    (∀ pfx, applyOp s (.search pfx (.error e)) = s) ∧
    (∀ p, applyOp s (.create p (.error e)) = s) ∧
    (∀ aid, applyOp s (.fetchAgent aid (.error e)) = s) :=
  ⟨rfl, rfl, fun _ => rfl, fun _ => rfl, fun _ => rfl,
   rfl, rfl, fun _ => rfl, fun _ => rfl, fun _ => rfl⟩

/-- Claim C3: a successful `fetchAllProfiles` returns no value beyond its
success and only updates the cache: the store's other state
(`myAgentPubKey`) is unchanged, each key returned by the service now maps
to the (last) profile returned for it, and every other key is untouched. -/
theorem claim_C3_fetchAll_overwrites_returned_entries (s : ProfilesStore)
    (l : List AgentProfile) :
    ∃ s', fetchAllProfiles s (.ok l) = .ok s' ∧
      s'.myAgentPubKey = s.myAgentPubKey ∧
      ∀ k, assocGet s'.profiles k =
        match lastWins l k with
        | some p => some p
        | none => assocGet s.profiles k :=
  ⟨{ s with profiles := mergeEntries s.profiles l }, rfl, rfl,
   fun k => assocGet_mergeEntries l s.profiles k⟩

/-- Claim C4: a successful `createProfile p` followed immediately by
`myProfile` returns exactly `p`: the store echoes the input value locally
(writes `cache[myAgentPubKey] = p`) rather than re-fetching. -/
theorem claim_C4_create_then_myProfile_echoes_input (s : ProfilesStore)
    (p : Profile) :
    ∃ s', createProfile s p (.ok ()) = .ok s' ∧ myProfile s' = some p := by
  refine ⟨{ s with profiles := assocSet s.profiles s.myAgentPubKey p },
    rfl, ?_⟩
  show assocGet (assocSet s.profiles s.myAgentPubKey p) s.myAgentPubKey =
    some p
  rw [assocGet_assocSet]
  simp

/-- Claim C5: for every service outcome, `searchProfiles` performs
exactly the cache mutation `fetchAllProfiles` would perform on the same
returned sequence — the same per-entry overwrite rule, no local filtering
of the returned entries, and no dependence on the nickname prefix. -/
theorem claim_C5_search_merges_like_fetchAll (s : ProfilesStore)
    (pfx : String) (result : Except ServiceFailure (List AgentProfile)) :
    searchProfiles s pfx result = fetchAllProfiles s result := by
  cases result <;> rfl

/-- Claim C6: `fetchAgentProfile(agentId)` calls
`service.getAgentProfile(agentId)` and, on success, writes
`cache[agentId] = profile`; when the service reports the agent as absent
the cache is unchanged, and a failure propagates with the store
untouched. -/
theorem claim_C6_fetchAgentProfile_writes_requested_id (s : ProfilesStore)
    (agentId : String) :
    (∀ ap, fetchAgentProfile s agentId (.ok (some ap)) =
        .ok { s with profiles := assocSet s.profiles agentId ap.profile }) ∧
    fetchAgentProfile s agentId (.ok none) = .ok s ∧
    (∀ e, fetchAgentProfile s agentId (.error e) = .error e) :=
  ⟨fun _ => rfl, rfl, fun _ => rfl⟩

/-- Claim C7: `profileOf(agentId)` is a pure read view of the cache —
it returns `cache[agentId]` when present and absent (`none`) otherwise —
and it returns absent for every agent id never written by any prior
successful fetch, search, or create operation of a store that started
with the empty cache. -/
theorem claim_C7_profileOf_absent_when_never_returned :
    (∀ (s : ProfilesStore) (agentId : String),
        profileOf s agentId = assocGet s.profiles agentId) ∧
    (∀ (selfId : String) (ops : List StoreOp) (aid : String),
        (∀ op ∈ ops, touchesB selfId aid op = false) →
        profileOf (runOps { myAgentPubKey := selfId, profiles := [] } ops)
          aid = none) := by
  refine ⟨fun _ _ => rfl, fun selfId ops aid h => ?_⟩
  exact runOps_untouched ops { myAgentPubKey := selfId, profiles := [] }
    aid h

/-- Witness for claim C7: a store for agent `"me"` that runs a successful
`fetchAllProfiles` returning Alice's entry and a successful
`createProfile` still reports agent `"B"` as absent. -/
theorem claim_C7_witness :
    profileOf
      (runOps { myAgentPubKey := "me", profiles := [] }
        [StoreOp.fetchAll (.ok
            [{ agent_pub_key := "A",
               profile := { nickname := "Alice", fields := [] } }]),
         StoreOp.create { nickname := "Carol", fields := [] } (.ok ())])
      "B" = none :=
  claim_C7_profileOf_absent_when_never_returned.2 "me"
    [StoreOp.fetchAll (.ok
        [{ agent_pub_key := "A",
           profile := { nickname := "Alice", fields := [] } }]),
     StoreOp.create { nickname := "Carol", fields := [] } (.ok ())]
    "B" (by decide)

/-- Claim C8: cache entries are never removed — for every sequence of
store operations, successful or failing, every agent id present in the
cache beforehand is still present afterwards. -/
theorem claim_C8_cache_domain_monotonic (s : ProfilesStore)
    (ops : List StoreOp) (k : String)
    (h : assocGet s.profiles k ≠ none) :
    assocGet (runOps s ops).profiles k ≠ none := by
  induction ops generalizing s with
  | nil => exact h
  | cons op ops ih => exact ih (applyOp s op) (applyOp_preserves s op k h)

/-- Witness for claim C8: agent `"A"`, present before a successful
`fetchAllProfiles` returning Bob's entry and a failing `fetchMyProfile`,
is still present afterwards. -/
theorem claim_C8_witness :
    assocGet
      ({ myAgentPubKey := "me",
         profiles := [("A", { nickname := "Alice", fields := [] })] }
        : ProfilesStore).profiles "A" ≠ none ∧
    assocGet
      (runOps
        { myAgentPubKey := "me",
          profiles := [("A", { nickname := "Alice", fields := [] })] }
        [StoreOp.fetchAll (.ok
            [{ agent_pub_key := "B",
               profile := { nickname := "Bob", fields := [] } }]),
         StoreOp.fetchMy (.error (.serviceError "boom"))]).profiles
      "A" ≠ none :=
  ⟨by decide,
   claim_C8_cache_domain_monotonic
     { myAgentPubKey := "me",
       profiles := [("A", { nickname := "Alice", fields := [] })] }
     [StoreOp.fetchAll (.ok
         [{ agent_pub_key := "B",
            profile := { nickname := "Bob", fields := [] } }]),
      StoreOp.fetchMy (.error (.serviceError "boom"))]
     "A" (by decide)⟩

/-- Claim C9: successful `fetchMyProfile` and `createProfile` write only
the cache entry keyed by the store's own agent id: every other key maps
to the same profile afterwards as before. -/
theorem claim_C9_self_writes_frame (s : ProfilesStore) (ap : AgentProfile)
    (p : Profile) (k : String) (h : k ≠ s.myAgentPubKey) :
    (∀ s', fetchMyProfile s (.ok ap) = .ok s' →
        assocGet s'.profiles k = assocGet s.profiles k) ∧
    (∀ s', createProfile s p (.ok ()) = .ok s' →
        assocGet s'.profiles k = assocGet s.profiles k) := by
  constructor
  · intro s' hs'
    simp only [fetchMyProfile] at hs'
    injection hs' with h2
    subst h2
    show assocGet (assocSet s.profiles s.myAgentPubKey ap.profile) k = _
    rw [assocGet_assocSet]
    simp [h]
  · intro s' hs'
    simp only [createProfile] at hs'
    injection hs' with h2
    subst h2
    show assocGet (assocSet s.profiles s.myAgentPubKey p) k = _
    rw [assocGet_assocSet]
    simp [h]

/-- Witness for claim C9: a successful `fetchMyProfile` of agent `"me"`
leaves the cached profile of agent `"A"` untouched. -/
theorem claim_C9_witness :
    assocGet
      ({ myAgentPubKey := "me",
         profiles := [("A", { nickname := "Alice", fields := [] }),
                      ("me", { nickname := "Mia", fields := [] })] }
        : ProfilesStore).profiles "A" =
    assocGet
      ({ myAgentPubKey := "me",
         profiles := [("A", { nickname := "Alice", fields := [] })] }
        : ProfilesStore).profiles "A" :=
  (claim_C9_self_writes_frame
      { myAgentPubKey := "me",
        profiles := [("A", { nickname := "Alice", fields := [] })] }
      { agent_pub_key := "me",
        profile := { nickname := "Mia", fields := [] } }
      { nickname := "X", fields := [] } "A" (by decide)).1
    { myAgentPubKey := "me",
      profiles := [("A", { nickname := "Alice", fields := [] }),
                   ("me", { nickname := "Mia", fields := [] })] }
    (by decide)

/-- Counterexample to claim C10 as stated: the emitted fields mapping can
contain the key `"avatar"` although no avatar is set. With no avatar
selected and one additional text field whose id is `"avatar"` (an element
id of `profile-field-avatar`) holding `"x"`, the event's fields map
`"avatar"` to `"x"` while `_avatar` is `undefined` — refuting "contains
the key `"avatar"` (mapped to the currently selected avatar) if and only
if an avatar is set". -/
theorem claim_C10_counterexample :
    ¬ (∀ st : EditProfileState,
        assocGet (fireSaveProfile st).fields "avatar" = st.avatar) :=
  fun h => absurd
    (h { nicknameValue := "n",
         additionalTextFields := [("avatar", "x")],
         avatar := none })
    (by decide)

/-- Claim C10 (amended): the `Profile` emitted by
`EditProfile.fireSaveProfile` has nickname equal to the current value of
the nickname text field; when a non-empty avatar is set, its fields map
`"avatar"` to the currently selected avatar; when no avatar is set (or
the selected avatar is the empty string, which JavaScript truthiness
skips), the fields are exactly the additional text fields' values — so
the key `"avatar"` then appears only if an additional text field has id
`"avatar"`; and at every key other than `"avatar"` the fields agree with
the additional text fields' values. -/
theorem claim_C10_save_profile_event (st : EditProfileState) :
    (fireSaveProfile st).nickname = st.nicknameValue ∧
    (∀ a, st.avatar = some a → a ≠ "" →
        assocGet (fireSaveProfile st).fields "avatar" = some a) ∧
    ((st.avatar = none ∨ st.avatar = some "") →
        (fireSaveProfile st).fields = getAdditionalFieldsValues st) ∧
    (∀ k, k ≠ "avatar" →
        assocGet (fireSaveProfile st).fields k =
          assocGet (getAdditionalFieldsValues st) k) := by
  refine ⟨rfl, ?_, ?_, ?_⟩
  · intro a ha hne
    simp [fireSaveProfile, ha, hne, assocGet_assocSet]
  · intro hcase
    rcases hcase with hnone | hempty
    · simp [fireSaveProfile, hnone]
    · simp [fireSaveProfile, hempty]
  · intro k hk
    rcases hav : st.avatar with _ | a
    · simp [fireSaveProfile, hav]
    · rcases eq_or_ne a "" with he | he
      · simp [fireSaveProfile, hav, he]
      · simp [fireSaveProfile, hav, he, assocGet_assocSet, hk]

/-- Witness for claim C10: saving with nickname `"nick"`, one additional
field `("location", "Berlin")` and the avatar `"data:image"` emits a
profile whose fields map `"avatar"` to `"data:image"`. -/
theorem claim_C10_witness :
    assocGet
      (fireSaveProfile
        { nicknameValue := "nick",
          additionalTextFields := [("location", "Berlin")],
          avatar := some "data:image" }).fields "avatar" =
      some "data:image" :=
  (claim_C10_save_profile_event
      { nicknameValue := "nick",
        additionalTextFields := [("location", "Berlin")],
        avatar := some "data:image" }).2.1 "data:image" rfl (by decide)

end Profiles
